import Mathlib

/-!
Verification of the roomwatch vacancy-monitoring pipeline (src/roomwatch.py).

Python text values are modelled as `List Char`; Python dictionaries holding a
structured vacancy report are modelled as a structure whose fields are
`Option`-valued, so that an absent dictionary key is `none` (matching the
semantics of `dict.get`, which yields `None` for a missing key).  External
effects (HTTP calls, the LLM endpoint, file I/O, the system clock) are
supplied as oracle parameters; everything the repository itself computes is
translated from the source.
-/

namespace Roomwatch

/-- Python strings, modelled as lists of characters. -/
abbrev Str := List Char

/-- The newline separator used by `get_text` and by line joining. -/
def nl : Str := ['\n']

/-- The string-to-model coercion for literals appearing in the source. -/
def lit (s : String) : Str := s.toList

/-- Whitespace test matching Python `str.strip` / `str.isspace`. -/
def isWs (c : Char) : Bool := c.isWhitespace

/-- Python `str.lower` (ASCII case folding suffices for the source's uses). -/
def pyLower (s : Str) : Str := s.map Char.toLower

/-- Removal of trailing whitespace, the right half of Python `str.strip`. -/
def dropTrail (l : Str) : Str := (l.reverse.dropWhile isWs).reverse

/-- Python `str.strip`: drop leading and trailing whitespace. -/
def pyStrip (l : Str) : Str := dropTrail (l.dropWhile isWs)

/-- Splitting at every newline character; a trailing newline produces a final
empty segment (so `splitNl` of the empty string is one empty segment). -/
def splitNl : Str → List Str
  | [] => [[]]
  | c :: rest =>
    if c = '\n' then [] :: splitNl rest
    else
      match splitNl rest with
      | [] => [[c]]
      | l :: ls => (c :: l) :: ls

/-- Python `str.splitlines` restricted to the newline character: like
`splitNl` but a trailing empty segment is not reported, and the empty string
has no lines at all. -/
def pySplitlines (s : Str) : List Str :=
  let ps := splitNl s
  if ps.getLast? = some [] then ps.dropLast else ps

/-- One entry of the `rooms` list of a structured report: a Python dict with
optional `room` and `details` keys. -/
structure RoomEntry where
  room : Option Str
  details : Option Str
deriving DecidableEq, Repr

/-- A structured vacancy report, the Python dict produced by
`summarize_with_claude` (and persisted by `save_state`).  Every field is
optional because the dict may lack any key. -/
structure Report where
  has_vacancies : Option Bool := none
  vacancy_count : Option Int := none
  summary : Option Str := none
  rooms : Option (List RoomEntry) := none
  notes : Option Str := none
  last_check : Option Str := none
deriving DecidableEq, Repr

/-- The set of room identifiers of a report:
`set(r.get('room', '') for r in data.get('rooms', []))` in the source. -/
def roomSet (data : Report) : Finset Str :=
  (((data.rooms.getD []).map (fun r => r.room.getD [])).toFinset)

/-- Translation of `RoomWatch.has_changes` (src/roomwatch.py lines 196-229). -/
def has_changes (current : Report) (previous : Option Report) : Bool :=
  match previous with
  | none => true
  | some prev =>
    if current.has_vacancies ≠ prev.has_vacancies then true
    else if current.vacancy_count ≠ prev.vacancy_count then true
    else if roomSet current ≠ roomSet prev then true
    else false

/-- Python string joining `sep.join(parts)`. -/
def joinWith (sep : Str) : List Str → Str
  | [] => []
  | [s] => s
  | s :: rest => s ++ sep ++ joinWith sep rest

/-- Python substring containment, `needle in haystack`. -/
def pyContains (haystack needle : Str) : Bool := decide (needle <:+: haystack)

/-- Python truthiness of an optional boolean (`if value:` where the value is a
boolean or `None`). -/
def truthyBool : Option Bool → Bool
  | some b => b
  | none => false

/-- Python truthiness of an optional string: `None` and `''` are falsy. -/
def truthyStr : Option Str → Bool
  | some s => !s.isEmpty
  | none => false

/-- Python truthiness of an optional list: `None` and `[]` are falsy. -/
def truthyRooms : Option (List RoomEntry) → Bool
  | some (_ :: _) => true
  | _ => false

/-- The fallback report built by `summarize_with_claude` when the raw LLM
response is not parseable JSON (src/roomwatch.py lines 157-165). -/
def fallbackReport (response_text : Str) : Report :=
  { has_vacancies := some (pyContains (pyLower response_text) (lit "available") ||
                           pyContains (pyLower response_text) (lit "vacancy")),
    vacancy_count := some 0,
    summary := some response_text,
    rooms := some [],
    notes := some (lit "Could not parse structured data"),
    last_check := none }

/-- Translation of the response-handling part of `RoomWatch.summarize_with_claude`
(lines 151-168).  JSON decoding of the raw response text is external
(`json.loads`), supplied as the oracle `parse`; a `none` parse models
`json.JSONDecodeError`, in which case the fallback report is built. -/
def summarize_result (parse : Str → Option Report) (response_text : Str) : Report :=
  match parse response_text with
  | some result => result
  | none => fallbackReport response_text

/-- The form fields of the POST to the push-notification endpoint that depend
on the report (lines 258-270): title, message (after truncation) and
priority. -/
structure PushRequest where
  title : Str
  message : Str
  priority : Int
deriving DecidableEq, Repr

/-- One line of the room list in the notification body (line 248). -/
def roomLine (room : RoomEntry) : Str :=
  lit "- " ++ room.room.getD (lit "N/A") ++ lit ": " ++
    room.details.getD (lit "No details") ++ nl

/-- Translation of the message-building and truncation logic of
`RoomWatch.send_notification` (lines 231-270).  A `.error` result models the
`KeyError` raised by the subscript `vacancy_data['summary']` when the report
has no `summary` key — it aborts before any request fields are produced; the
HTTP POST itself is external and receives the returned fields. -/
def send_notification_request (vacancy_data : Report) : Except Str PushRequest :=
  if truthyBool vacancy_data.has_vacancies then
    match vacancy_data.summary with
    | none => .error (lit "KeyError: summary")
    | some s =>
      let message := s ++ lit "\n\n"
      let message :=
        if truthyRooms vacancy_data.rooms then
          ((vacancy_data.rooms.getD []).take 5).foldl
            (fun m room => m ++ roomLine room)
            (message ++ lit "Available rooms:\n")
        else message
      let message :=
        if truthyStr vacancy_data.notes then
          message ++ nl ++ vacancy_data.notes.getD []
        else message
      .ok { title := lit "🏠 Room Vacancies Detected!",
            message := message.take 1024,
            priority := 1 }
  else
    .ok { title := lit "Room Watch Update",
          message := (lit "No vacancies currently available.\n\n" ++
            vacancy_data.summary.getD []).take 1024,
          priority := 0 }

/-- The environment variables read by `RoomWatch.__init__` (lines 32-38); a
variable that is unset is `none`. -/
structure Env where
  claude_api_key : Option Str := none
  pushover_token : Option Str := none
  pushover_user : Option Str := none
  target_url : Option Str := none
  state_file : Option Str := none
deriving DecidableEq, Repr

/-- Python falsiness of an optional string (`if not value`): `None` and the
empty string are both falsy. -/
def falsy (v : Option Str) : Bool :=
  match v with
  | none => true
  | some s => s.isEmpty

/-- The required-variable table of `RoomWatch._validate_config` (lines 48-53). -/
def required_vars (env : Env) : List (Str × Option Str) :=
  [(lit "CLAUDE_API_KEY", env.claude_api_key),
   (lit "PUSHOVER_TOKEN", env.pushover_token),
   (lit "PUSHOVER_USER", env.pushover_user),
   (lit "TARGET_URL", env.target_url)]

/-- The missing-variable list computed by `_validate_config` (line 55). -/
def missing_vars (env : Env) : List Str :=
  ((required_vars env).filter (fun p => falsy p.2)).map (fun p => p.1)

/-- Translation of `RoomWatch.__init__` together with `_validate_config`
(lines 32-57): the constructor reads the environment and validates it before
the LLM client object is built; a `ValueError` naming every missing variable
is raised when any required value is falsy.  No network request is issued by
the constructor. -/
def roomwatch_init (env : Env) : Except Str Env :=
  if missing_vars env ≠ [] then
    .error (lit "Missing required environment variables: " ++
      joinWith (lit ", ") (missing_vars env))
  else
    .ok env

end Roomwatch

namespace Roomwatch

mutual
/-- A parsed markup tree, the output of the external HTML parser
(`BeautifulSoup(html, 'lxml')`): a text node, or an element with a tag name
and children. -/
inductive Html where
  | text (s : Str) : Html
  | elem (tag : Str) (children : HtmlList) : Html
deriving DecidableEq, Repr
/-- A sequence of sibling markup nodes. -/
inductive HtmlList where
  | nil : HtmlList
  | cons (h : Html) (t : HtmlList) : HtmlList
deriving DecidableEq, Repr
end

/-- The parsed document: the top-level sibling nodes of the soup. -/
abbrev Doc := HtmlList

/-- The element kinds removed wholesale by `extract_content` (line 93). -/
def bannedTags : List Str :=
  [lit "script", lit "style", lit "nav", lit "footer", lit "header"]

mutual
/-- The decompose pass of `extract_content` (lines 93-94):
`soup(['script', 'style', 'nav', 'footer', 'header'])` followed by
`.decompose()` removes every element whose tag is banned together with its
entire subtree, wherever it occurs. -/
def decomposeNode : Html → Option Html
  | .text s => some (.text s)
  | .elem tag children =>
    if bannedTags.contains tag then none
    else some (.elem tag (decomposeList children))
/-- The decompose pass over a sequence of sibling nodes. -/
def decomposeList : HtmlList → HtmlList
  | .nil => .nil
  | .cons h t =>
    match decomposeNode h with
    | none => decomposeList t
    | some h2 => .cons h2 (decomposeList t)
end

mutual
/-- The text-node strings of a tree in document order, the strings that
`get_text` concatenates. -/
def getTexts : Html → List Str
  | .text s => [s]
  | .elem _ children => getTextsList children
/-- The text-node strings of a sequence of sibling nodes, in order. -/
def getTextsList : HtmlList → List Str
  | .nil => []
  | .cons h t => getTexts h ++ getTextsList t
end

/-- bs4 `get_text(separator='\n', strip=True)` over a document (line 97):
each text-node string is stripped, empty results are skipped, and the rest
are joined with the separator. -/
def get_text (d : Doc) : Str :=
  joinWith nl (((getTextsList d).map pyStrip).filter (fun s => !s.isEmpty))

/-- Translation of `RoomWatch.extract_content` (lines 79-104): decompose the
banned elements, take the visible text with newline separators, strip every
line, drop the lines that are empty after stripping, and join the survivors
with newlines. -/
def extract_content (d : Doc) : Str :=
  joinWith nl (((pySplitlines (get_text (decomposeList d))).map pyStrip).filter
    (fun s => !s.isEmpty))

mutual
/-- The visible text blocks named by the spec: the text nodes that are not
contained in any banned element, in original document order.  Stated from the
spec's wording, independently of `decomposeNode`, for comparison with
`extract_content`. -/
def visibleTexts : Html → List Str
  | .text s => [s]
  | .elem tag children =>
    if bannedTags.contains tag then []
    else visibleTextsList children
/-- The visible text blocks of a sequence of sibling nodes, in order. -/
def visibleTextsList : HtmlList → List Str
  | .nil => []
  | .cons h t => visibleTexts h ++ visibleTextsList t
end

/-- The content-extraction contract as the spec words it: remove the banned
elements entirely, take all remaining visible text, split it on line
boundaries, trim each line, discard the lines that are empty or
whitespace-only after trimming, and rejoin with newline separators. -/
def spec_extract (d : Doc) : Str :=
  joinWith nl ((((visibleTextsList d).flatMap splitNl).map pyStrip).filter
    (fun s => !s.isEmpty))

/-- Translation of `RoomWatch.load_previous_state` (lines 174-184).  The file
system is modelled by the optional file content (`none` when the state file
does not exist or cannot be read), and the external JSON decoder `parse`
returns `none` to model a decoding exception.  Every failure path returns
`None`; the function never raises. -/
def load_previous_state (file : Option Str) (parse : Str → Option Report) :
    Option Report :=
  match file with
  | none => none
  | some contents => parse contents

/-- Translation of `RoomWatch.save_state` (lines 186-194): the timestamp is
attached to the report dict in place before the write is attempted, and the
outcome of the external write is swallowed (a failure is only logged), so the
updated report is returned in every case and the function never raises. -/
def save_state (state : Report) (now : Str) (write : Report → Except Str Unit) :
    Report :=
  match write { state with last_check := some now } with
  | .ok _ => { state with last_check := some now }
  | .error _ => { state with last_check := some now }

/-- The external world of one run: the fetch outcome, the HTML parser, the
LLM call, the JSON decoders, the state-file content, the push POST outcome,
the state-file write outcome, and the clock. -/
structure RunWorld where
  fetch : Except Str Str
  parseHtml : Str → Doc
  llm : Str → Except Str Str
  parseJson : Str → Option Report
  stateFile : Option Str
  parseStateJson : Str → Option Report
  post : PushRequest → Except Str Unit
  writeState : Report → Except Str Unit
  now : Str

/-- Translation of `RoomWatch.run` (lines 277-312).  The boolean flag of the
result records whether `save_state` was invoked during the run; a `.error`
first component models an exception propagating out of `run`. -/
def run (w : RunWorld) : Except Str Report × Bool :=
  match w.fetch with
  | .error e => (.error e, false)
  | .ok html =>
    let content := extract_content (w.parseHtml html)
    match w.llm content with
    | .error e => (.error e, false)
    | .ok response_text =>
      let vacancy_data := summarize_result w.parseJson response_text
      let previous_state := load_previous_state w.stateFile w.parseStateJson
      let notifyStep : Except Str Unit :=
        if has_changes vacancy_data previous_state then
          match send_notification_request vacancy_data with
          | .error e => .error e
          | .ok req => w.post req
        else .ok ()
      match notifyStep with
      | .error e => (.error e, false)
      | .ok _ => (.ok (save_state vacancy_data w.now w.writeState), true)

/-- The body of the response envelope of `lambda_handler`: a success body
carries a message and the run result, a failure body carries a message and
the error string. -/
inductive LambdaBody where
  | success (message : Str) (result : Report) : LambdaBody
  | failure (message : Str) (error : Str) : LambdaBody
deriving DecidableEq, Repr

/-- The response envelope returned by `lambda_handler`. -/
structure LambdaResponse where
  statusCode : Nat
  body : LambdaBody
deriving DecidableEq, Repr

/-- Translation of `lambda_handler` (lines 315-345): construct the watcher
(which may raise a configuration error), run it, and adapt the outcome into a
response envelope; every exception is caught and encoded as a 500 response. -/
def lambda_handler (env : Env) (world : Env → RunWorld) : LambdaResponse :=
  match roomwatch_init env with
  | .error e =>
    { statusCode := 500,
      body := .failure (lit "RoomWatch execution failed") e }
  | .ok cfg =>
    match (run (world cfg)).1 with
    | .ok result =>
      { statusCode := 200,
        body := .success (lit "RoomWatch executed successfully") result }
    | .error e =>
      { statusCode := 500,
        body := .failure (lit "RoomWatch execution failed") e }

/-- The cleanup applied to lines throughout `extract_content`: split at
newlines, strip every segment, and drop the segments that are empty after
stripping. -/
def cleanLines (t : Str) : List Str :=
  ((splitNl t).map pyStrip).filter (fun s => !s.isEmpty)

/-- A JSON decoder that always fails, modelling a `JSONDecodeError` on every
input. -/
def parseNone : Str → Option Report := fun _ => none

/-- A state write that always fails with an I/O error. -/
def failWrite : Report → Except Str Unit := fun _ => Except.error (lit "disk full")

/-- A sample structured report: no vacancies. -/
def r0 : Report := { has_vacancies := some false, summary := some (lit "No rooms.") }

/-- A sample world in which every external step succeeds and the LLM response
decodes to `r0`. -/
def w_success : RunWorld :=
  { fetch := Except.ok (lit "<html></html>"),
    parseHtml := fun _ => HtmlList.nil,
    llm := fun _ => Except.ok (lit "{}"),
    parseJson := fun _ => some r0,
    stateFile := none,
    parseStateJson := parseNone,
    post := fun _ => Except.ok (),
    writeState := fun _ => Except.ok (),
    now := lit "2026-01-01T00:00:00" }

/-- A sample world in which the fetch step raises (a timeout). -/
def w_fetch_timeout : RunWorld :=
  { w_success with fetch := Except.error (lit "timeout") }

end Roomwatch

namespace Roomwatch

/-- C1: `has_changes` returns true exactly when there is no previous state, or
`has_vacancies` differs, or `vacancy_count` differs, or the unordered sets of
distinct room identifiers differ; in particular it is false whenever those
three agree (regardless of room ordering or detail text), and true for every
current report when the previous state is `none`. -/
theorem has_changes_iff (current : Report) (previous : Option Report) :
    has_changes current previous = true ↔
      (previous = none ∨
        ∃ prev, previous = some prev ∧
          (current.has_vacancies ≠ prev.has_vacancies ∨
           current.vacancy_count ≠ prev.vacancy_count ∨
           roomSet current ≠ roomSet prev)) := by
  cases previous with
  | none => simp [has_changes]
  | some prev =>
    simp only [has_changes]
    constructor
    · intro h
      by_cases h1 : current.has_vacancies ≠ prev.has_vacancies
      · exact Or.inr ⟨prev, rfl, Or.inl h1⟩
      · by_cases h2 : current.vacancy_count ≠ prev.vacancy_count
        · exact Or.inr ⟨prev, rfl, Or.inr (Or.inl h2)⟩
        · by_cases h3 : roomSet current ≠ roomSet prev
          · exact Or.inr ⟨prev, rfl, Or.inr (Or.inr h3)⟩
          · simp [h1, h2, h3] at h
    · rintro (h | ⟨q, heq, h⟩)
      · exact absurd h (by simp)
      · injection heq with hq
        subst hq
        rcases h with h | h | h
        · simp [h]
        · by_cases h1 : current.has_vacancies ≠ prev.has_vacancies <;>
            simp [h1, h]
        · by_cases h1 : current.has_vacancies ≠ prev.has_vacancies <;>
            by_cases h2 : current.vacancy_count ≠ prev.vacancy_count <;>
            simp [h1, h2, h]

/-- C3: for every raw LLM response text that is not parseable JSON,
`summarize_with_claude` returns (instead of failing) the degraded report:
`has_vacancies` is true exactly when the lowercased raw text contains the
substring "available" or the substring "vacancy", `vacancy_count` is 0,
`summary` is the raw response text, `rooms` is empty, and `notes` records
that structured data could not be parsed. -/
theorem summarize_fallback_spec (parse : Str → Option Report)
    (response_text : Str) (hp : parse response_text = none) :
    ∃ b : Bool,
      summarize_result parse response_text =
        { has_vacancies := some b,
          vacancy_count := some 0,
          summary := some response_text,
          rooms := some [],
          notes := some (lit "Could not parse structured data"),
          last_check := none } ∧
      (b = true ↔
        (lit "available" <:+: pyLower response_text ∨
         lit "vacancy" <:+: pyLower response_text)) := by
  refine ⟨pyContains (pyLower response_text) (lit "available") ||
          pyContains (pyLower response_text) (lit "vacancy"), ?_, ?_⟩
  · simp [summarize_result, hp, fallbackReport]
  · simp [pyContains, Bool.or_eq_true, decide_eq_true_eq]

/-- Witness for C3 at a concrete unparseable response. -/
theorem summarize_fallback_spec_witness :
    ∃ b : Bool,
      summarize_result parseNone (lit "Rooms are AVAILABLE today") =
        { has_vacancies := some b,
          vacancy_count := some 0,
          summary := some (lit "Rooms are AVAILABLE today"),
          rooms := some [],
          notes := some (lit "Could not parse structured data"),
          last_check := none } ∧
      (b = true ↔
        (lit "available" <:+: pyLower (lit "Rooms are AVAILABLE today") ∨
         lit "vacancy" <:+: pyLower (lit "Rooms are AVAILABLE today"))) :=
  summarize_fallback_spec parseNone (lit "Rooms are AVAILABLE today") rfl

/-- C4: for every vacancy report for which the notifier builds a request, the
message body posted to the push-notification endpoint is at most 1024
characters long after formatting. -/
theorem notification_message_le_1024 (vacancy_data : Report)
    (req : PushRequest)
    (h : send_notification_request vacancy_data = Except.ok req) :
    req.message.length ≤ 1024 := by
  by_cases hv : truthyBool vacancy_data.has_vacancies <;>
    simp only [send_notification_request, hv, if_true, if_false,
      Bool.false_eq_true, reduceIte] at h
  · cases hsum : vacancy_data.summary with
    | none => rw [hsum] at h; exact absurd h (by simp)
    | some s =>
      rw [hsum] at h
      injection h with h2
      subst h2
      simp [List.length_take]
  · injection h with h2
    subst h2
    simp [List.length_take]

/-- Witness for C4 at a concrete report. -/
theorem notification_message_le_1024_witness :
    ∃ req, send_notification_request r0 = Except.ok req ∧
      req.message.length ≤ 1024 :=
  ⟨_, rfl, notification_message_le_1024 r0 _ rfl⟩

/-- C10: `send_notification` is not total over structured reports: it raises
(a `KeyError` on the unconditional subscript of the `summary` field, before
any HTTP request is made) exactly when the report's `has_vacancies` value is
truthy and the report has no `summary` key; in every other case the request
fields are produced, all other fields being read with safe defaults. -/
theorem send_notification_keyerror_iff (vacancy_data : Report) :
    (∃ e, send_notification_request vacancy_data = Except.error e) ↔
      (truthyBool vacancy_data.has_vacancies = true ∧
       vacancy_data.summary = none) := by
  by_cases hv : truthyBool vacancy_data.has_vacancies
  · cases hsum : vacancy_data.summary with
    | none => simp [send_notification_request, hv, hsum]
    | some s => simp [send_notification_request, hv, hsum]
  · simp [send_notification_request, hv]

/-- An infix of a list is an infix of any left extension of it. -/
theorem isInf_append_left (t : Str) {a u : Str} (h : a <:+: u) :
    a <:+: t ++ u := by
  obtain ⟨s, t2, rfl⟩ := h
  exact ⟨t ++ s, t2, by simp⟩

/-- Every member of a joined list is an infix of the join. -/
theorem mem_infix_joinWith (sep : Str) {a : Str} :
    ∀ {ls : List Str}, a ∈ ls → a <:+: joinWith sep ls := by
  intro ls
  induction ls with
  | nil => intro h; exact absurd h (List.not_mem_nil a)
  | cons s rest ih =>
    intro h
    cases rest with
    | nil =>
      rcases List.mem_cons.mp h with h | h
      · subst h; simp [joinWith]
      · exact absurd h (List.not_mem_nil a)
    | cons s2 rest2 =>
      rcases List.mem_cons.mp h with h | h
      · subst h
        exact ⟨[], sep ++ joinWith sep (s2 :: rest2), by simp [joinWith]⟩
      · have := isInf_append_left (s ++ sep) (ih h)
        simpa [joinWith, List.append_assoc] using this

/-- C7: if any of the four required configuration values is missing from the
environment (unset or empty), constructing the monitor fails with a
configuration error — before any network activity, since the constructor only
validates and builds the client object — and the error message names each
missing variable. -/
theorem init_missing_config (env : Env)
    (h : falsy env.claude_api_key = true ∨ falsy env.pushover_token = true ∨
         falsy env.pushover_user = true ∨ falsy env.target_url = true) :
    ∃ msg, roomwatch_init env = Except.error msg ∧
      (falsy env.claude_api_key = true → lit "CLAUDE_API_KEY" <:+: msg) ∧
      (falsy env.pushover_token = true → lit "PUSHOVER_TOKEN" <:+: msg) ∧
      (falsy env.pushover_user = true → lit "PUSHOVER_USER" <:+: msg) ∧
      (falsy env.target_url = true → lit "TARGET_URL" <:+: msg) := by
  have hmem : ∀ p ∈ required_vars env, falsy p.2 = true →
      p.1 ∈ missing_vars env := by
    intro p hp hf
    exact List.mem_map.mpr ⟨p, List.mem_filter.mpr ⟨hp, hf⟩, rfl⟩
  have h1 : falsy env.claude_api_key = true →
      lit "CLAUDE_API_KEY" ∈ missing_vars env :=
    fun hf => hmem (lit "CLAUDE_API_KEY", env.claude_api_key)
      (by simp [required_vars]) hf
  have h2 : falsy env.pushover_token = true →
      lit "PUSHOVER_TOKEN" ∈ missing_vars env :=
    fun hf => hmem (lit "PUSHOVER_TOKEN", env.pushover_token)
      (by simp [required_vars]) hf
  have h3 : falsy env.pushover_user = true →
      lit "PUSHOVER_USER" ∈ missing_vars env :=
    fun hf => hmem (lit "PUSHOVER_USER", env.pushover_user)
      (by simp [required_vars]) hf
  have h4 : falsy env.target_url = true →
      lit "TARGET_URL" ∈ missing_vars env :=
    fun hf => hmem (lit "TARGET_URL", env.target_url)
      (by simp [required_vars]) hf
  have hne : missing_vars env ≠ [] := by
    rcases h with h | h | h | h
    · exact List.ne_nil_of_mem (h1 h)
    · exact List.ne_nil_of_mem (h2 h)
    · exact List.ne_nil_of_mem (h3 h)
    · exact List.ne_nil_of_mem (h4 h)
  refine ⟨lit "Missing required environment variables: " ++
      joinWith (lit ", ") (missing_vars env), ?_, ?_, ?_, ?_, ?_⟩
  · unfold roomwatch_init
    rw [if_pos hne]
  · exact fun hf => isInf_append_left _ (mem_infix_joinWith _ (h1 hf))
  · exact fun hf => isInf_append_left _ (mem_infix_joinWith _ (h2 hf))
  · exact fun hf => isInf_append_left _ (mem_infix_joinWith _ (h3 hf))
  · exact fun hf => isInf_append_left _ (mem_infix_joinWith _ (h4 hf))

/-- Witness for C7 at the empty environment, where all four variables are
missing. -/
theorem init_missing_config_witness :
    ∃ msg, roomwatch_init {} = Except.error msg ∧
      (falsy ({} : Env).claude_api_key = true → lit "CLAUDE_API_KEY" <:+: msg) ∧
      (falsy ({} : Env).pushover_token = true → lit "PUSHOVER_TOKEN" <:+: msg) ∧
      (falsy ({} : Env).pushover_user = true → lit "PUSHOVER_USER" <:+: msg) ∧
      (falsy ({} : Env).target_url = true → lit "TARGET_URL" <:+: msg) :=
  init_missing_config {} (Or.inl rfl)

/-- C2: a run that fails in any step before the save step — fetch, extract,
summarize, load, change detection, or notification — never invokes
`save_state`, so the previously persisted state file is left intact. -/
theorem run_error_no_save (w : RunWorld) (e : Str)
    (h : (run w).1 = Except.error e) : (run w).2 = false := by
  cases hf : w.fetch with
  | error e2 => simp [run, hf]
  | ok html =>
    cases hl : w.llm (extract_content (w.parseHtml html)) with
    | error e2 => simp [run, hf, hl]
    | ok response_text =>
      simp only [run, hf, hl] at h ⊢
      by_cases hc : has_changes (summarize_result w.parseJson response_text)
          (load_previous_state w.stateFile w.parseStateJson)
      · simp only [hc, if_true] at h ⊢
        cases hs : send_notification_request
            (summarize_result w.parseJson response_text) with
        | error e2 => simp [hs]
        | ok req =>
          simp only [hs] at h ⊢
          cases hp : w.post req with
          | error e2 => simp [hp]
          | ok u => rw [hp] at h; exact absurd h (by simp)
      · simp only [hc, if_false] at h
        exact absurd h (by simp)

/-- Witness for C2 at a world whose fetch step times out. -/
theorem run_error_no_save_witness : (run w_fetch_timeout).2 = false :=
  run_error_no_save w_fetch_timeout (lit "timeout") rfl

/-- The updated report returned by `save_state` always carries the attached
timestamp, whatever the write outcome. -/
theorem save_state_last_check (state : Report) (now : Str)
    (write : Report → Except Str Unit) :
    (save_state state now write).last_check = some now := by
  simp only [save_state]
  cases hw : write { state with last_check := some now } <;> simp [hw]

/-- The report returned by `save_state` does not depend on the write
outcome. -/
theorem save_state_write_irrelevant (state : Report) (now : Str)
    (write write2 : Report → Except Str Unit) :
    save_state state now write = save_state state now write2 := by
  simp only [save_state]
  cases hw : write { state with last_check := some now } <;>
    cases hw2 : write2 { state with last_check := some now } <;> simp [hw, hw2]

/-- A successful construction returns the environment unchanged. -/
theorem init_ok_eq {env cfg : Env} (h : roomwatch_init env = Except.ok cfg) :
    cfg = env := by
  unfold roomwatch_init at h
  split at h
  · exact absurd h (by simp)
  · injection h with h2
    exact h2.symm

/-- On a successful run the returned report carries the timestamp attached by
`save_state`. -/
theorem run_ok_last_check (w : RunWorld) (r : Report)
    (h : (run w).1 = Except.ok r) : r.last_check = some w.now := by
  cases hf : w.fetch with
  | error e2 => rw [run, hf] at h; exact absurd h (by simp)
  | ok html =>
    cases hl : w.llm (extract_content (w.parseHtml html)) with
    | error e2 => simp only [run, hf, hl] at h; exact absurd h (by simp)
    | ok response_text =>
      simp only [run, hf, hl] at h
      by_cases hc : has_changes (summarize_result w.parseJson response_text)
          (load_previous_state w.stateFile w.parseStateJson)
      · simp only [hc, if_true] at h
        cases hs : send_notification_request
            (summarize_result w.parseJson response_text) with
        | error e2 => simp only [hs] at h; exact absurd h (by simp)
        | ok req =>
          simp only [hs] at h
          cases hp : w.post req with
          | error e2 => simp only [hp] at h; exact absurd h (by simp)
          | ok u =>
            simp only [hp] at h
            injection h with h2
            subst h2
            exact save_state_last_check _ _ _
      · simp only [hc, if_false] at h
        injection h with h2
        subst h2
        exact save_state_last_check _ _ _

/-- C9: `save_state` adds the `last_check` timestamp to the report dict it is
given, in place; consequently the dictionary returned by a successful `run`
carries the `last_check` field, and the 200 response of the event-driven
entry point embeds a result that contains it. -/
theorem run_result_contains_last_check :
    (∀ w r, (run w).1 = Except.ok r → r.last_check = some w.now) ∧
    (∀ env world, (lambda_handler env world).statusCode = 200 →
      ∃ m r, (lambda_handler env world).body = LambdaBody.success m r ∧
        r.last_check = some ((world env).now)) := by
  constructor
  · exact run_ok_last_check
  · intro env world h200
    cases hi : roomwatch_init env with
    | error e =>
      simp only [lambda_handler, hi] at h200
      exact absurd h200 (by simp)
    | ok cfg =>
      obtain rfl := init_ok_eq hi
      cases hr : (run (world cfg)).1 with
      | error e =>
        simp only [lambda_handler, hi, hr] at h200
        exact absurd h200 (by simp)
      | ok r =>
        refine ⟨lit "RoomWatch executed successfully", r, ?_, ?_⟩
        · simp only [lambda_handler, hi, hr]
        · exact run_ok_last_check _ _ hr

/-- Witness for C9: the successful sample run returns the saved report, whose
`last_check` field is the attached timestamp. -/
theorem run_result_contains_last_check_witness :
    ({ has_vacancies := some false, summary := some (lit "No rooms."),
       last_check := some (lit "2026-01-01T00:00:00") } : Report).last_check =
      some w_success.now :=
  run_result_contains_last_check.1 w_success _ rfl

/-- C6: state-store operations never abort a run: loading returns the
no-previous-state sentinel whenever the state file is absent, unreadable, or
fails to decode (corruption is treated as absence), and a failing write
during save is swallowed — the outcome of `run` does not depend on the write
result at all, so a run with a failing save still completes successfully. -/
theorem state_store_never_aborts :
    (∀ parse, load_previous_state none parse = none) ∧
    (∀ s parse, parse s = none → load_previous_state (some s) parse = none) ∧
    (∀ w write, run { w with writeState := write } = run w) := by
  refine ⟨fun parse => rfl, fun s parse hp => hp, fun w write => ?_⟩
  cases hf : w.fetch with
  | error e2 => simp [run, hf]
  | ok html =>
    cases hl : w.llm (extract_content (w.parseHtml html)) with
    | error e2 => simp [run, hf, hl]
    | ok response_text =>
      simp only [run, hf, hl]
      by_cases hc : has_changes (summarize_result w.parseJson response_text)
          (load_previous_state w.stateFile w.parseStateJson)
      · simp only [hc, if_true]
        cases hs : send_notification_request
            (summarize_result w.parseJson response_text) with
        | error e2 => simp [hs]
        | ok req =>
          cases hp : w.post req with
          | error e2 => simp [hs, hp]
          | ok u => simp [hs, hp, save_state_write_irrelevant _ _ write w.writeState]
      · simp only [hc, if_false]
        rw [save_state_write_irrelevant _ _ write w.writeState]

/-- Witness for C6: a corrupt state file loads as the sentinel, and the
sample run is unchanged when its state write fails. -/
theorem state_store_never_aborts_witness :
    load_previous_state (some (lit "corrupt")) parseNone = none ∧
    run { w_success with writeState := failWrite } = run w_success :=
  ⟨state_store_never_aborts.2.1 (lit "corrupt") parseNone rfl,
   state_store_never_aborts.2.2 w_success failWrite⟩

/-- C8: the event-driven entry point never propagates an exception to its
host: for every environment and world it returns a response object —
statusCode 200 with a body carrying the success message and the run result
when the run succeeds, and statusCode 500 with a body carrying the failure
message and the error string whenever construction or any step fails. -/
theorem lambda_handler_total (env : Env) (world : Env → RunWorld) :
    (∃ r, (run (world env)).1 = Except.ok r ∧
      lambda_handler env world =
        { statusCode := 200,
          body := LambdaBody.success (lit "RoomWatch executed successfully") r }) ∨
    (∃ e, lambda_handler env world =
        { statusCode := 500,
          body := LambdaBody.failure (lit "RoomWatch execution failed") e }) := by
  cases hi : roomwatch_init env with
  | error e => exact Or.inr ⟨e, by simp only [lambda_handler, hi]⟩
  | ok cfg =>
    obtain rfl := init_ok_eq hi
    cases hr : (run (world cfg)).1 with
    | ok r => exact Or.inl ⟨r, rfl, by simp only [lambda_handler, hi, hr]⟩
    | error e => exact Or.inr ⟨e, by simp only [lambda_handler, hi, hr]⟩

mutual
/-- The text contributed by one node after decomposition equals its visible
text: nothing when the node is a banned element (the whole subtree is
removed), its text nodes in order otherwise. -/
theorem getTexts_decomposeNode : ∀ h : Html,
    (match decomposeNode h with
     | none => []
     | some h2 => getTexts h2) = visibleTexts h
  | .text s => rfl
  | .elem tag children => by
    by_cases hb : tag ∈ bannedTags
    · simp [decomposeNode, visibleTexts, hb]
    · simp [decomposeNode, visibleTexts, hb, getTexts,
        getTexts_decomposeList children]
/-- The text remaining after decomposition is exactly the visible text, in
original order. -/
theorem getTexts_decomposeList : ∀ d : HtmlList,
    getTextsList (decomposeList d) = visibleTextsList d
  | .nil => rfl
  | .cons h t => by
    have hn := getTexts_decomposeNode h
    cases hd : decomposeNode h with
    | none =>
      rw [hd] at hn
      have hn2 : ([] : List Str) = visibleTexts h := hn
      simp only [decomposeList, hd, visibleTextsList]
      rw [getTexts_decomposeList t, ← hn2, List.nil_append]
    | some h2 =>
      rw [hd] at hn
      have hn2 : getTexts h2 = visibleTexts h := hn
      simp only [decomposeList, hd, visibleTextsList, getTextsList]
      rw [getTexts_decomposeList t, hn2]
end

/-- Newline splitting always yields at least one segment. -/
theorem splitNl_ne_nil (t : Str) : splitNl t ≠ [] := by
  induction t with
  | nil => simp [splitNl]
  | cons c rest ih =>
    by_cases hc : c = '\n'
    · simp [splitNl, hc]
    · simp only [splitNl, hc, if_false]
      cases hs : splitNl rest <;> simp

/-- Newline splitting distributes over a newline junction. -/
theorem splitNl_append_newline (s u : Str) :
    splitNl (s ++ '\n' :: u) = splitNl s ++ splitNl u := by
  induction s with
  | nil => simp [splitNl]
  | cons c rest ih =>
    by_cases hc : c = '\n'
    · subst hc
      simp [splitNl, ih]
    · cases hs : splitNl rest with
      | nil => exact absurd hs (splitNl_ne_nil rest)
      | cons l ls => simp [splitNl, hc, ih, hs]

/-- Appending a non-newline character extends the final segment of the
newline splitting. -/
theorem splitNl_append_single {c : Char} (hc : ¬c = '\n') (t : Str) :
    ∃ init last0, splitNl t = init ++ [last0] ∧
      splitNl (t ++ [c]) = init ++ [last0 ++ [c]] := by
  induction t with
  | nil =>
    refine ⟨[], [], rfl, ?_⟩
    simp [splitNl, hc]
  | cons a rest ih =>
    obtain ⟨init, last0, h1, h2⟩ := ih
    by_cases ha : a = '\n'
    · subst ha
      exact ⟨[] :: init, last0, by simp [splitNl, h1], by simp [splitNl, h2]⟩
    · cases init with
      | nil =>
        simp only [List.nil_append] at h1 h2
        refine ⟨[], a :: last0, ?_, ?_⟩
        · simp [splitNl, ha, h1]
        · simp [splitNl, ha, h2]
      | cons i0 irest =>
        refine ⟨(a :: i0) :: irest, last0, ?_, ?_⟩
        · simp [splitNl, ha, h1]
        · simp [splitNl, ha, h2]

/-- Stripping ignores a leading whitespace character. -/
theorem pyStrip_cons_ws {c : Char} (hc : isWs c = true) (l : Str) :
    pyStrip (c :: l) = pyStrip l := by
  simp [pyStrip, List.dropWhile_cons, hc]

/-- Right trimming ignores a trailing whitespace character. -/
theorem dropTrail_append_ws {c : Char} (hc : isWs c = true) (l : Str) :
    dropTrail (l ++ [c]) = dropTrail l := by
  simp [dropTrail, List.dropWhile_cons, hc]

/-- Stripping ignores a trailing whitespace character. -/
theorem pyStrip_append_ws {c : Char} (hc : isWs c = true) (l : Str) :
    pyStrip (l ++ [c]) = pyStrip l := by
  unfold pyStrip
  cases hd : l.dropWhile isWs with
  | nil =>
    have h2 : (l ++ [c]).dropWhile isWs = [] := by
      rw [List.dropWhile_append, hd]
      simp [List.dropWhile_cons, hc]
    rw [h2]
  | cons x xs =>
    have h2 : (l ++ [c]).dropWhile isWs = (x :: xs) ++ [c] := by
      rw [List.dropWhile_append, hd]
      simp
    rw [h2]
    exact dropTrail_append_ws hc (x :: xs)

/-- The line cleanup ignores a leading whitespace character. -/
theorem cleanLines_cons_ws {c : Char} (hc : isWs c = true) (t : Str) :
    cleanLines (c :: t) = cleanLines t := by
  by_cases hn : c = '\n'
  · subst hn
    simp [cleanLines, splitNl, pyStrip, dropTrail]
  · cases hs : splitNl t with
    | nil => exact absurd hs (splitNl_ne_nil t)
    | cons l ls =>
      simp [cleanLines, splitNl, hn, hs, pyStrip_cons_ws hc]

/-- The line cleanup ignores a trailing whitespace character. -/
theorem cleanLines_append_ws {c : Char} (hc : isWs c = true) (t : Str) :
    cleanLines (t ++ [c]) = cleanLines t := by
  by_cases hn : c = '\n'
  · subst hn
    have h := splitNl_append_newline t []
    simp only [cleanLines, h]
    simp [splitNl, pyStrip, dropTrail]
  · obtain ⟨init, last0, h1, h2⟩ := splitNl_append_single hn t
    simp [cleanLines, h1, h2, pyStrip_append_ws hc]

/-- The line cleanup ignores leading whitespace. -/
theorem cleanLines_dropWhile (t : Str) :
    cleanLines (t.dropWhile isWs) = cleanLines t := by
  induction t with
  | nil => rfl
  | cons a rest ih =>
    by_cases ha : isWs a = true
    · rw [List.dropWhile_cons, if_pos ha, ih, cleanLines_cons_ws ha]
    · rw [List.dropWhile_cons, if_neg ha]

/-- The line cleanup ignores trailing whitespace. -/
theorem cleanLines_dropTrail (t : Str) :
    cleanLines (dropTrail t) = cleanLines t := by
  induction t using List.reverseRecOn with
  | nil => rfl
  | append_singleton ys y ih =>
    by_cases hy : isWs y = true
    · rw [dropTrail_append_ws hy, ih, cleanLines_append_ws hy]
    · have h2 : dropTrail (ys ++ [y]) = ys ++ [y] := by
        simp [dropTrail, List.dropWhile_cons, hy]
      rw [h2]

/-- The line cleanup of a stripped string equals that of the string. -/
theorem cleanLines_pyStrip (t : Str) : cleanLines (pyStrip t) = cleanLines t := by
  rw [pyStrip, cleanLines_dropTrail, cleanLines_dropWhile]

/-- The line cleanup distributes over a newline junction. -/
theorem cleanLines_append_newline (s u : Str) :
    cleanLines (s ++ '\n' :: u) = cleanLines s ++ cleanLines u := by
  simp [cleanLines, splitNl_append_newline]

/-- The line cleanup of a newline join is the join of the cleanups. -/
theorem cleanLines_joinWith (ts : List Str) :
    cleanLines (joinWith nl ts) = ts.flatMap cleanLines := by
  induction ts with
  | nil => rfl
  | cons t rest ih =>
    cases rest with
    | nil => simp [joinWith]
    | cons t2 rest2 =>
      have h2 : joinWith nl (t :: t2 :: rest2) =
          t ++ '\n' :: joinWith nl (t2 :: rest2) := by
        simp [joinWith, nl]
      rw [h2, List.flatMap_cons, cleanLines_append_newline, ih]

/-- Pre-stripping the blocks and dropping the blank ones does not change the
cleaned lines. -/
theorem flatMap_cleanLines_strip_filter (ts : List Str) :
    (((ts.map pyStrip).filter (fun s => !s.isEmpty)).flatMap cleanLines) =
      ts.flatMap cleanLines := by
  induction ts with
  | nil => rfl
  | cons t rest ih =>
    by_cases ht : (pyStrip t).isEmpty
    · have ht2 : pyStrip t = [] := List.isEmpty_iff.mp ht
      have ht3 : cleanLines t = [] := by
        rw [← cleanLines_pyStrip t, ht2]; rfl
      simp [ht, ht3, ih]
    · simp only [List.map_cons, List.filter_cons]
      rw [if_pos (by simp [ht]), List.flatMap_cons, List.flatMap_cons,
        cleanLines_pyStrip, ih]

/-- The cleaned lines of the joined visible text of a document. -/
theorem cleanLines_get_text (d : Doc) :
    cleanLines (get_text d) = (getTextsList d).flatMap cleanLines := by
  rw [get_text, cleanLines_joinWith, flatMap_cleanLines_strip_filter]

/-- The Python `splitlines` cleanup agrees with the plain newline-split
cleanup: they differ only in a trailing empty segment, which the filter
drops. -/
theorem cleanLines_pySplitlines (s : Str) :
    ((pySplitlines s).map pyStrip).filter (fun x => !x.isEmpty) =
      cleanLines s := by
  simp only [pySplitlines, cleanLines]
  by_cases hl : (splitNl s).getLast? = some []
  · obtain ⟨init, hinit⟩ := List.getLast?_eq_some_iff.mp hl
    rw [if_pos hl, hinit, List.dropLast_concat]
    simp [pyStrip, dropTrail]
  · rw [if_neg hl]

/-- Splitting each block then cleaning equals cleaning each block. -/
theorem flatMap_splitNl_clean (ts : List Str) :
    ((ts.flatMap splitNl).map pyStrip).filter (fun s => !s.isEmpty) =
      ts.flatMap cleanLines := by
  induction ts with
  | nil => rfl
  | cons t rest ih =>
    simp only [List.flatMap_cons, List.map_append, List.filter_append, ih]
    rfl

/-- C5: `extract_content` meets the spec's extraction contract: its output
equals the spec-side description — all text originating inside script, style,
nav, footer, or header elements removed (including nested text), the
remaining visible text kept in original order, each line trimmed, lines that
are empty or whitespace-only after trimming discarded, and the survivors
joined with newline separators.  In particular the text surviving
decomposition is exactly the visible text outside banned elements, in
document order, and the whole function is a pure function of the markup
tree. -/
theorem extract_content_meets_spec (d : Doc) :
    extract_content d = spec_extract d ∧
    getTextsList (decomposeList d) = visibleTextsList d := by
  refine ⟨?_, getTexts_decomposeList d⟩
  rw [extract_content, spec_extract, cleanLines_pySplitlines,
    cleanLines_get_text, getTexts_decomposeList d, flatMap_splitNl_clean]

end Roomwatch
